import Mathlib

/-!
Verification of the gdax-cryptoexchange-api client library (src/index.ts).

The development shallowly embeds the library's request-signing and
request-dispatch core:

* the byte-level primitives the source delegates to its runtime and to the
  node `crypto` module (UTF-8 encoding, base64 encoding/decoding, SHA-256,
  HMAC-SHA256), implemented concretely so that every definition is
  executable;
* `signMessage`, the exported signer;
* the raw agent (`getPublicEndpoint`, `getFromPrivateEndpoint`,
  `postToPrivateEndpoint`, `deleteFromPrivateEndpoint`, `isUpgraded`,
  `upgrade`) with dispatch modelled by an explicit transport function and a
  log of the dispatched request configurations;
* the facade methods the claims mention (`listOrders`, `listFunding`,
  `withdrawToPaymentMethod`, `withdrawToCoinbaseAccount`).

The source computes its timestamp impurely (`Date.now() / 1000`) and splices
it into both the prehash string and the returned signature.  The embedding
makes that clock read an explicit input: the timestamp is carried as the
decimal string rendering that the source's template literal produces, since
only that rendering ever enters the prehash, the returned signature and the
`CB-ACCESS-TIMESTAMP` header.
-/

namespace GdaxClient

/-! ## Bytes and strings -/

/-- UTF-8 encoding of a single unicode scalar value, as a list of byte
values.  Models the encoding node applies when hashing a javascript string
(`hmac.update(prehash)` uses utf-8) and when percent-encoding query values. -/
def utf8Bytes (c : Char) : List Nat :=
  let n := c.toNat
  if n < 128 then [n]
  else if n < 2048 then [192 + n / 64, 128 + n % 64]
  else if n < 65536 then [224 + n / 4096, 128 + (n / 64) % 64, 128 + n % 64]
  else [240 + n / 262144, 128 + (n / 4096) % 64, 128 + (n / 64) % 64, 128 + n % 64]

/-- UTF-8 encoding of a string as a list of byte values. -/
def utf8Encode (s : String) : List Nat :=
  (s.toList.map utf8Bytes).flatten

/-- The uppercasing the source's `method.toUpperCase()` performs, modelled
per character (the methods supplied by the agent are plain ASCII). -/
def jsToUpperCase (s : String) : String :=
  String.mk (s.toList.map Char.toUpper)

/-! ## Base64 (node `Buffer`/`digest('base64')`) -/

/-- The base64 alphabet. -/
def b64Alphabet : List Char :=
  "ABCDEFGHIJKLMNOPQRSTUVWXYZabcdefghijklmnopqrstuvwxyz0123456789+/".toList

/-- Character for a 6-bit group. -/
def b64Char (n : Nat) : Char :=
  b64Alphabet.getD n 'A'

/-- Base64-encode a byte list, fuelled by the list length so the definition
is structurally recursive and kernel-reducible. -/
def base64EncodeAux : Nat → List Nat → List Char
  | 0, _ => []
  | _, [] => []
  | _, [b1] =>
      [b64Char (b1 / 4), b64Char (b1 % 4 * 16), '=', '=']
  | _, [b1, b2] =>
      [b64Char (b1 / 4), b64Char (b1 % 4 * 16 + b2 / 16), b64Char (b2 % 16 * 4), '=']
  | fuel + 1, b1 :: b2 :: b3 :: rest =>
      b64Char (b1 / 4) :: b64Char (b1 % 4 * 16 + b2 / 16) ::
        b64Char (b2 % 16 * 4 + b3 / 64) :: b64Char (b3 % 64) ::
        base64EncodeAux fuel rest

/-- Base64 encoding of a byte list, with `=` padding, as produced by node's
`digest('base64')`. -/
def base64Encode (bytes : List Nat) : String :=
  String.mk (base64EncodeAux bytes.length bytes)

/-- Position of a character in an alphabet, `none` when absent. -/
def alphabetIndex : List Char → Nat → Char → Option Nat
  | [], _, _ => none
  | a :: rest, i, c => if a = c then some i else alphabetIndex rest (i + 1) c

/-- The 6-bit value of a base64 alphabet character, `none` for characters
outside the alphabet (node's decoder skips those, including `=`). -/
def b64Value (c : Char) : Option Nat :=
  alphabetIndex b64Alphabet 0 c

/-- Decode a list of 6-bit values into bytes, four values giving three
bytes; a trailing group of three values gives two bytes, of two values one
byte, and a single leftover value no byte — node `Buffer.from(_, 'base64')`
behaviour.  Fuelled by the list length. -/
def base64DecodeAux : Nat → List Nat → List Nat
  | 0, _ => []
  | _, [] => []
  | _, [_] => []
  | _, [a, b] => [a * 4 + b / 16]
  | _, [a, b, c] => [a * 4 + b / 16, b % 16 * 16 + c / 4]
  | fuel + 1, a :: b :: c :: d :: rest =>
      (a * 4 + b / 16) :: (b % 16 * 16 + c / 4) :: (c % 4 * 64 + d) ::
        base64DecodeAux fuel rest

/-- Base64 decoding of a string into raw key bytes, modelling the source's
`new Buffer(privateKey, 'base64')`: characters outside the alphabet
(padding included) are skipped, then 6-bit groups are packed into bytes. -/
def base64Decode (s : String) : List Nat :=
  let vals := s.toList.filterMap b64Value
  base64DecodeAux vals.length vals

/-! ## SHA-256 (node `crypto.createHmac('sha256', key)`) -/

/-- Truncation to a 32-bit word. -/
def w32 (n : Nat) : Nat := n % 4294967296

/-- Right rotation of a 32-bit word by `n` places. -/
def rotr (x n : Nat) : Nat := x / 2 ^ n + x % 2 ^ n * 2 ^ (32 - n)

/-- Logical right shift of a 32-bit word. -/
def shr (x n : Nat) : Nat := x / 2 ^ n

/-- Bitwise complement of a 32-bit word. -/
def notW (x : Nat) : Nat := 4294967295 - w32 x

/-- SHA-256 `Ch` function. -/
def shaCh (x y z : Nat) : Nat := Nat.xor (Nat.land x y) (Nat.land (notW x) z)

/-- SHA-256 `Maj` function. -/
def shaMaj (x y z : Nat) : Nat :=
  Nat.xor (Nat.xor (Nat.land x y) (Nat.land x z)) (Nat.land y z)

/-- SHA-256 big sigma 0. -/
def bigSigma0 (x : Nat) : Nat := Nat.xor (Nat.xor (rotr x 2) (rotr x 13)) (rotr x 22)

/-- SHA-256 big sigma 1. -/
def bigSigma1 (x : Nat) : Nat := Nat.xor (Nat.xor (rotr x 6) (rotr x 11)) (rotr x 25)

/-- SHA-256 small sigma 0. -/
def smallSigma0 (x : Nat) : Nat := Nat.xor (Nat.xor (rotr x 7) (rotr x 18)) (shr x 3)

/-- SHA-256 small sigma 1. -/
def smallSigma1 (x : Nat) : Nat := Nat.xor (Nat.xor (rotr x 17) (rotr x 19)) (shr x 10)

/-- The SHA-256 round constants, written in decimal. -/
def shaK : List Nat :=
  [1116352408, 1899447441, 3049323471, 3921009573, 961987163,
   1508970993, 2453635748, 2870763221, 3624381080, 310598401,
   607225278, 1426881987, 1925078388, 2162078206, 2614888103,
   3248222580, 3835390401, 4022224774, 264347078, 604807628,
   770255983, 1249150122, 1555081692, 1996064986, 2554220882,
   2821834349, 2952996808, 3210313671, 3336571891, 3584528711,
   113926993, 338241895, 666307205, 773529912, 1294757372,
   1396182291, 1695183700, 1986661051, 2177026350, 2456956037,
   2730485921, 2820302411, 3259730800, 3345764771, 3516065817,
   3600352804, 4094571909, 275423344, 430227734, 506948616,
   659060556, 883997877, 958139571, 1322822218, 1537002063,
   1747873779, 1955562222, 2024104815, 2227730452, 2361852424,
   2428436474, 2756734187, 3204031479, 3329325298]

/-- The SHA-256 initial hash value, written in decimal. -/
def shaH0 : List Nat :=
  [1779033703, 3144134277, 1013904242, 2773480762,
   1359893119, 2600822924, 528734635, 1541459225]

/-- Big-endian bytes of a number, `k` bytes wide. -/
def bytesBE : Nat → Nat → List Nat
  | 0, _ => []
  | k + 1, n => n / 2 ^ (8 * k) % 256 :: bytesBE k n

/-- Big-endian 32-bit word from four bytes. -/
def wordOfBytes : List Nat → Nat
  | [a, b, c, d] => ((a * 256 + b) * 256 + c) * 256 + d
  | _ => 0

/-- SHA-256 padding: append the `0x80` marker, zeros to 56 mod 64 bytes,
then the 64-bit big-endian bit length. -/
def shaPad (msg : List Nat) : List Nat :=
  let len := msg.length
  msg ++ 128 :: List.replicate ((119 - len % 64) % 64) 0 ++ bytesBE 8 (8 * len)

/-- Split a byte list into 64-byte blocks, fuelled by the list length. -/
def toBlocksAux : Nat → List Nat → List (List Nat)
  | 0, _ => []
  | _, [] => []
  | fuel + 1, l => l.take 64 :: toBlocksAux fuel (l.drop 64)

/-- Split a byte list into 64-byte blocks. -/
def toBlocks (l : List Nat) : List (List Nat) :=
  toBlocksAux l.length l

/-- Split a byte list into 4-byte groups, fuelled by the list length. -/
def toWordsAux : Nat → List Nat → List (List Nat)
  | 0, _ => []
  | _, [] => []
  | fuel + 1, l => l.take 4 :: toWordsAux fuel (l.drop 4)

/-- The first 16 words of the message schedule, from a 64-byte block. -/
def blockWords (block : List Nat) : List Nat :=
  (toWordsAux block.length block).map wordOfBytes

/-- Extend the message schedule by `n` further words. -/
def extendSchedule : Nat → List Nat → List Nat
  | 0, ws => ws
  | n + 1, ws =>
      let t := ws.length
      let x := w32 (smallSigma1 (ws.getD (t - 2) 0) + ws.getD (t - 7) 0 +
                    smallSigma0 (ws.getD (t - 15) 0) + ws.getD (t - 16) 0)
      extendSchedule n (ws ++ [x])

/-- One SHA-256 compression round on the eight-word state, for a pair of a
round constant and a schedule word. -/
def compressRound (st : List Nat) (kw : Nat × Nat) : List Nat :=
  match st with
  | [a, b, c, d, e, f, g, h] =>
      let t1 := w32 (h + bigSigma1 e + shaCh e f g + kw.1 + kw.2)
      let t2 := w32 (bigSigma0 a + shaMaj a b c)
      [w32 (t1 + t2), a, b, c, w32 (d + t1), e, f, g]
  | other => other

/-- Process one 64-byte block: run the 64 rounds and add the result into the
chaining state. -/
def processBlock (hs : List Nat) (block : List Nat) : List Nat :=
  let ws := extendSchedule 48 (blockWords block)
  let final := (shaK.zip ws).foldl compressRound hs
  List.zipWith (fun x y => w32 (x + y)) hs final

/-- SHA-256 of a byte list, as 32 bytes. -/
def sha256 (msg : List Nat) : List Nat :=
  let hs := (toBlocks (shaPad msg)).foldl processBlock shaH0
  (hs.map (bytesBE 4)).flatten

/-- HMAC-SHA256 with a raw byte key, as node's
`crypto.createHmac('sha256', key)` computes it: keys longer than the 64-byte
block are first hashed, the key is zero-padded to 64 bytes, and the inner
and outer hashes use the `0x36`/`0x5c` padded keys. -/
def hmacSha256 (key msg : List Nat) : List Nat :=
  let key0 := if key.length > 64 then sha256 key else key
  let keyPad := key0 ++ List.replicate (64 - key0.length) 0
  let ipad := keyPad.map (Nat.xor 0x36)
  let opad := keyPad.map (Nat.xor 0x5c)
  sha256 (opad ++ sha256 (ipad ++ msg))

/-- Inverse of `b64Char` on the alphabet, used only to prove the encoding
injective. -/
def b64Inv (c : Char) : Nat :=
  (alphabetIndex b64Alphabet 0 c).getD 64

/-- Decoder for the exact char streams `base64EncodeAux` emits, used only
to prove the encoding injective by a round trip. -/
def b64DecodeChars : List Char → List Nat
  | c1 :: c2 :: c3 :: c4 :: rest =>
      if c3 = '=' then [b64Inv c1 * 4 + b64Inv c2 / 16]
      else if c4 = '=' then
        [b64Inv c1 * 4 + b64Inv c2 / 16, b64Inv c2 % 16 * 16 + b64Inv c3 / 4]
      else
        (b64Inv c1 * 4 + b64Inv c2 / 16) :: (b64Inv c2 % 16 * 16 + b64Inv c3 / 4) ::
          (b64Inv c3 % 4 * 64 + b64Inv c4) :: b64DecodeChars rest
  | _ => []

/-! ## Scalars, bodies and query strings -/

/-- The scalar values the source's `IPostBody`/`IQueryParams` index
signatures admit: `string | number | boolean`.  Numbers are modelled as
integers (every numeric value the claims exercise is integral, and only the
decimal rendering of a number ever reaches a serialized request). -/
inductive Scalar where
  | str (s : String)
  | num (n : Int)
  | bool (b : Bool)
deriving Repr, DecidableEq

/-- The post body shape (`IPostBody`): a javascript object, an ordered
mapping from keys to scalars. -/
def IPostBody := List (String × Scalar)

/-- The query string object shape (`IQueryParams`). -/
def IQueryParams := List (String × Scalar)

/-- Rendering of a scalar into a query-string value, as `qs.stringify`
produces before percent-encoding. -/
def scalarQsString : Scalar → String
  | .str s => s
  | .num n => toString n
  | .bool b => if b then "true" else "false"

/-- Hex digit characters, uppercase, as `qs` uses in percent escapes. -/
def hexDigit (n : Nat) : Char :=
  if n < 10 then Char.ofNat (48 + n) else Char.ofNat (55 + n)

/-- Percent escape of one byte. -/
def percentByte (b : Nat) : String :=
  String.mk ['%', hexDigit (b / 16), hexDigit (b % 16)]

/-- RFC 3986 unreserved characters, which `qs.stringify` leaves intact. -/
def isUnreserved (c : Char) : Bool :=
  c.isAlphanum || c = '-' || c = '.' || c = '_' || c = '~'

/-- Percent-encoding of a string as `qs.stringify` applies to keys and
values. -/
def urlEncode (s : String) : String :=
  String.join (s.toList.map fun c =>
    if isUnreserved c then String.mk [c]
    else String.join ((utf8Bytes c).map percentByte))

/-- The `qs.stringify` call the agent applies to its optional query-params
argument: `undefined` stringifies to the empty string, an object to its
`&`-joined percent-encoded `key=value` pairs. -/
def qsStringify : Option IQueryParams → String
  | none => ""
  | some ps =>
      String.intercalate "&" (ps.map fun kv =>
        urlEncode kv.1 ++ "=" ++ urlEncode (scalarQsString kv.2))

/-! ## JSON serialization (`JSON.stringify` on a flat body object) -/

/-- `JSON.stringify` escaping of one character inside a string literal. -/
def jsonEscapeChar (c : Char) : String :=
  if c = '"' then "\\\""
  else if c = '\\' then "\\\\"
  else if c = Char.ofNat 10 then "\\n"
  else if c = Char.ofNat 13 then "\\r"
  else if c = Char.ofNat 9 then "\\t"
  else if c.toNat < 32 then "\\u00" ++ String.mk [hexDigit (c.toNat / 16), hexDigit (c.toNat % 16)]
  else String.mk [c]

/-- `JSON.stringify` of a string. -/
def jsonString (s : String) : String :=
  "\"" ++ String.join (s.toList.map jsonEscapeChar) ++ "\""

/-- `JSON.stringify` of a scalar. -/
def scalarJson : Scalar → String
  | .str s => jsonString s
  | .num n => toString n
  | .bool b => if b then "true" else "false"

/-- `JSON.stringify` of a flat body object; the empty object serializes to
`\x7b\x7d`. -/
def jsonStringify (b : IPostBody) : String :=
  "\x7b" ++ String.intercalate ","
      (b.map fun kv => jsonString kv.1 ++ ":" ++ scalarJson kv.2) ++ "\x7d"

/-! ## The signer (`signMessage`, src/index.ts lines 77-99) -/

/-- Shape of the signature object (`ISignature`).  The source carries the
timestamp as a number; the embedding carries its decimal string rendering,
which is the only view of it the prehash, this record and the request
headers ever use. -/
structure ISignature where
  digest : String
  timestamp : String
deriving Repr, DecidableEq

/-- The prehash string `signMessage` hashes: with a body,
`timestamp ++ method.toUpperCase() ++ path ++ JSON.stringify(body)`;
without one, the same string with no JSON segment at all. -/
def signPrehash (path method : String) (body : Option IPostBody)
    (timestamp : String) : String :=
  match body with
  | some b => timestamp ++ jsToUpperCase method ++ path ++ jsonStringify b
  | none => timestamp ++ jsToUpperCase method ++ path

/-- `signMessage` (src/index.ts lines 77-99): decode the base64 private
key, build the prehash, HMAC-SHA256 it, base64 the digest, and return the
digest together with the timestamp that was hashed.  The source reads its
timestamp from the clock (`Date.now() / 1000`); the embedding takes that
reading as the explicit `timestamp` argument. -/
def signMessage (privateKey path method : String) (body : Option IPostBody)
    (timestamp : String) : ISignature :=
  let key := base64Decode privateKey
  let prehash := signPrehash path method body timestamp
  let digest := base64Encode (hmacSha256 key (utf8Encode prehash))
  { digest := digest, timestamp := timestamp }

/-! ## Javascript values and the catch-block error normalization -/

/-- The fragment of javascript values the error-normalization chain
`err.response.data.error || err.response.data || err.response || err`
inspects: primitives and plain objects (ordered field lists). -/
inductive JsVal where
  | undef
  | null
  | boolV (b : Bool)
  | numV (n : Int)
  | strV (s : String)
  | obj (fields : List (String × JsVal))

/-- A thrown javascript exception, as property access on `undefined` or
`null` raises. -/
structure JsException where
  message : String
deriving Repr, DecidableEq

/-- The `TypeError` raised by reading a property of `undefined` (or
`null`). -/
def propertyReadTypeError : JsException :=
  { message := "TypeError: cannot read properties of undefined" }

/-- Javascript property access: throws on `undefined`/`null`, yields
`undefined` on other primitives and on objects lacking the field. -/
def getProp : JsVal → String → Except JsException JsVal
  | .undef, _ => .error propertyReadTypeError
  | .null, _ => .error propertyReadTypeError
  | .boolV _, _ => .ok .undef
  | .numV _, _ => .ok .undef
  | .strV _, _ => .ok .undef
  | .obj fields, name => .ok ((fields.lookup name).getD .undef)

/-- Javascript truthiness on the modelled value fragment. -/
def truthy : JsVal → Bool
  | .undef => false
  | .null => false
  | .boolV b => b
  | .numV n => n != 0
  | .strV s => s ≠ ""
  | .obj _ => true

/-- The rejection value of a failed request: either a value passed to
`Promise.reject`, or an exception thrown inside the `catch` block (which
rejects the async function's promise with that exception). -/
inductive Rejection where
  | value (v : JsVal)
  | exn (e : JsException)

/-- The catch-block chain shared verbatim by all four primitives
(src/index.ts lines 179-183, 220-224, 248-252, 289-293):
`err.response.data.error || err.response.data || err.response || err`,
with javascript evaluation order — the three property reads happen first
(each may throw), then truthiness picks the first truthy alternative. -/
def normalizeError (err : JsVal) : Except JsException JsVal := do
  let resp ← getProp err "response"
  let data ← getProp resp "data"
  let dataErr ← getProp data "error"
  pure (if truthy dataErr then dataErr
        else if truthy data then data
        else if truthy resp then resp
        else err)

/-- What a failed dispatch rejects with: the normalized reason, or the
exception if the normalization chain itself throws. -/
def rejectionOf (err : JsVal) : Rejection :=
  match normalizeError err with
  | .ok v => .value v
  | .error e => .exn e

/-! ## Request configurations and transport -/

/-- The headers carried by a request configuration: the fixed pair from
`defaultAgentConfig.headers`, plus the four `CB-ACCESS-*` authentication
headers on private requests (absent on public ones). -/
structure RequestHeaders where
  contentType : String
  userAgent : String
  cbAccessKey : Option String
  cbAccessPassphrase : Option String
  cbAccessSign : Option String
  cbAccessTimestamp : Option String
deriving Repr, DecidableEq

/-- The fixed header set of `defaultAgentConfig`. -/
def defaultHeaders : RequestHeaders :=
  { contentType := "application/json"
    userAgent := "GDAX API Client (gdax-cryptoexchange-api node package)"
    cbAccessKey := none
    cbAccessPassphrase := none
    cbAccessSign := none
    cbAccessTimestamp := none }

/-- The request configuration handed to the HTTP transport (the axios call
argument after the spreads in the source). -/
structure AgentConfig where
  baseURL : String
  headers : RequestHeaders
  method : String
  timeout : Nat
  url : String
  data : Option IPostBody

/-- `defaultConfig.rootUrl`. -/
def rootUrl : String := "https://api.gdax.com"

/-- `defaultAgentConfig` / `publicAgentConfig`: base URL, fixed headers,
method GET, 10000 ms timeout. -/
def publicAgentConfig : AgentConfig :=
  { baseURL := rootUrl, headers := defaultHeaders, method := "GET"
    timeout := 10000, url := "", data := none }

/-- `privateAgentConfig`: the public configuration with method POST. -/
def privateAgentConfig : AgentConfig :=
  { publicAgentConfig with method := "POST" }

/-- What the HTTP transport does with a dispatched configuration: resolve
with a response value or reject/throw with an error value.  The embedding
abstracts axios as a function so each theorem quantifies over transport
behaviour. -/
inductive Outcome where
  | success (resp : JsVal)
  | failure (err : JsVal)

/-- A transport: axios, or a test spy. -/
def Transport := AgentConfig → Outcome

/-! ## The raw agent (`getRawAgent`, src/index.ts lines 138-314) -/

/-- Convenient container for API keys (`IApiAuth`). -/
structure IApiAuth where
  publicKey : String
  privateKey : String
  passphrase : String
deriving Repr, DecidableEq

/-- The raw agent's state: the optional credentials (`auth`). -/
structure RawAgent where
  auth : Option IApiAuth
deriving Repr, DecidableEq

/-- `isUpgraded()`: the source returns `this.auth`, whose truthiness —
credentials present — the callers test. -/
def isUpgraded (a : RawAgent) : Bool :=
  a.auth.isSome

/-- `upgrade(newAuth)`: plain wholesale assignment of the credentials. -/
def upgrade (a : RawAgent) (newAuth : IApiAuth) : RawAgent :=
  { a with auth := some newAuth }

/-- The observable effect of one agent method call: the agent state after
the call, the resolved value or rejection, and the configurations handed to
the transport (empty when no network dispatch happened). -/
structure OpResult where
  agent : RawAgent
  result : Except Rejection JsVal
  dispatched : List AgentConfig

/-- The rejection value of a private call without credentials:
`Promise.reject` of the string literal in the source. -/
def unauthenticatedRejection : Rejection :=
  .value (.strV "api keys are required to access private endpoints")

/-- The shared try/await/catch tail of all four primitives: hand the
configuration to the transport, resolve with its response or reject with
the normalized error.  The agent state is returned unchanged — no method
body assigns to `this.auth` except `upgrade`. -/
def dispatch (a : RawAgent) (cfg : AgentConfig) (t : Transport) : OpResult :=
  match t cfg with
  | .success resp => { agent := a, result := .ok resp, dispatched := [cfg] }
  | .failure err => { agent := a, result := .error (rejectionOf err), dispatched := [cfg] }

/-- The four `CB-ACCESS-*` headers added on top of
`privateAgentConfig.headers` for a signed request. -/
def privateHeaders (auth : IApiAuth) (sig : ISignature) : RequestHeaders :=
  { defaultHeaders with
    cbAccessKey := some auth.publicKey
    cbAccessPassphrase := some auth.passphrase
    cbAccessSign := some sig.digest
    cbAccessTimestamp := some sig.timestamp }

/-- `deleteFromPrivateEndpoint` (src/index.ts lines 152-184): reject
without credentials; otherwise build `/" ++ endpoint ++ "?" ++ query`,
sign it with method DELETE and no body, attach the auth headers, dispatch
with method DELETE. -/
def deleteFromPrivateEndpoint (a : RawAgent) (endpoint : String)
    (queryParams : Option IQueryParams) (ts : String) (t : Transport) : OpResult :=
  match a.auth with
  | none => { agent := a, result := .error unauthenticatedRejection, dispatched := [] }
  | some auth =>
      let uri := "/" ++ endpoint ++ "?" ++ qsStringify queryParams
      let signatureData := signMessage auth.privateKey uri "DELETE" none ts
      let headers := privateHeaders auth signatureData
      dispatch a { privateAgentConfig with headers := headers, method := "DELETE", url := uri } t

/-- `getFromPrivateEndpoint` (src/index.ts lines 193-225): as the delete
primitive, but signed and dispatched with method GET. -/
def getFromPrivateEndpoint (a : RawAgent) (endpoint : String)
    (queryParams : Option IQueryParams) (ts : String) (t : Transport) : OpResult :=
  match a.auth with
  | none => { agent := a, result := .error unauthenticatedRejection, dispatched := [] }
  | some auth =>
      let uri := "/" ++ endpoint ++ "?" ++ qsStringify queryParams
      let signatureData := signMessage auth.privateKey uri "GET" none ts
      let headers := privateHeaders auth signatureData
      dispatch a { privateAgentConfig with headers := headers, method := "GET", url := uri } t

/-- `getPublicEndpoint` (src/index.ts lines 234-253): no credential check,
no signing; build the same url shape and dispatch with the public
configuration. -/
def getPublicEndpoint (a : RawAgent) (endpoint : String)
    (queryParams : Option IQueryParams) (t : Transport) : OpResult :=
  let uri := "/" ++ endpoint ++ "?" ++ qsStringify queryParams
  dispatch a { publicAgentConfig with url := uri } t

/-- `postToPrivateEndpoint` (src/index.ts lines 262-294): reject without
credentials; otherwise build `/" ++ endpoint` with no query string, sign it
with method POST and the body, attach the auth headers, dispatch the body
as the request payload (method POST from `privateAgentConfig`). -/
def postToPrivateEndpoint (a : RawAgent) (endpoint : String)
    (data : Option IPostBody) (ts : String) (t : Transport) : OpResult :=
  match a.auth with
  | none => { agent := a, result := .error unauthenticatedRejection, dispatched := [] }
  | some auth =>
      let uri := "/" ++ endpoint
      let signatureData := signMessage auth.privateKey uri "POST" data ts
      let headers := privateHeaders auth signatureData
      dispatch a { privateAgentConfig with headers := headers, url := uri, data := data } t

/-! ## Facade methods the claims mention (`getClient`, src/index.ts) -/

/-- `IListOrdersParams`. -/
structure IListOrdersParams where
  status : Option (List String)
  product_id : Option String

/-- `IListFundingParams`. -/
structure IListFundingParams where
  status : Option (List String)

/-- `IWithdrawToPaymentMethodParams`. -/
structure IWithdrawToPaymentMethodParams where
  amount : Int
  currency : String
  payment_method_id : String

/-- `IWithdrawToCoinbaseAccountParams`. -/
structure IWithdrawToCoinbaseAccountParams where
  amount : Int
  currency : String
  coinbase_account_id : String

/-- The runtime body object a withdraw-to-payment-method params record is
passed through as. -/
def IWithdrawToPaymentMethodParams.toBody (p : IWithdrawToPaymentMethodParams) : IPostBody :=
  [("amount", .num p.amount), ("currency", .str p.currency),
   ("payment_method_id", .str p.payment_method_id)]

/-- The runtime body object a withdraw-to-coinbase-account params record is
passed through as. -/
def IWithdrawToCoinbaseAccountParams.toBody (p : IWithdrawToCoinbaseAccountParams) : IPostBody :=
  [("amount", .num p.amount), ("currency", .str p.currency),
   ("coinbase_account_id", .str p.coinbase_account_id)]

/-- `listOrders` (src/index.ts lines 616-637): reads `params.status` before
anything else — on an omitted (`undefined`) params argument that property
read throws, rejecting the call before any agent primitive runs.  With
params present it builds the repeated-key `status=...` fragments manually,
appends `product_id` when given, joins with the stringified pagination
params, and calls `getFromPrivateEndpoint` with the query string folded
into the endpoint and no queryParams argument. -/
def listOrders (a : RawAgent) (params : Option IListOrdersParams)
    (paginationParams : Option IQueryParams) (ts : String) (t : Transport) : OpResult :=
  match params with
  | none => { agent := a, result := .error (.exn propertyReadTypeError), dispatched := [] }
  | some p =>
      let statuses := match p.status with
        | some arr => arr.map (fun status => "status=" ++ status)
        | none => []
      let orderParams := match p.product_id with
        | some pid => String.intercalate "&" statuses ++ "&product_id=" ++ pid
        | none => String.intercalate "&" statuses
      let pageParams := qsStringify paginationParams
      let queryString := orderParams ++ "&" ++ pageParams
      getFromPrivateEndpoint a ("orders?" ++ queryString) none ts t

/-- `listFunding` (src/index.ts lines 667-686): the same unguarded
`params.status` read and manual repeated-key construction as `listOrders`,
against the `funding` endpoint and with no `product_id` segment. -/
def listFunding (a : RawAgent) (params : Option IListFundingParams)
    (paginationParams : Option IQueryParams) (ts : String) (t : Transport) : OpResult :=
  match params with
  | none => { agent := a, result := .error (.exn propertyReadTypeError), dispatched := [] }
  | some p =>
      let statuses := match p.status with
        | some arr => arr.map (fun status => "status=" ++ status)
        | none => []
      let fundingParams := String.intercalate "&" statuses
      let pageParams := qsStringify paginationParams
      let queryString := fundingParams ++ "&" ++ pageParams
      getFromPrivateEndpoint a ("funding?" ++ queryString) none ts t

/-- `withdrawToPaymentMethod` (src/index.ts lines 760-762): posts its
params to the `withdrawals/coinbase-account` endpoint — the literal in the
source. -/
def withdrawToPaymentMethod (a : RawAgent) (params : IWithdrawToPaymentMethodParams)
    (ts : String) (t : Transport) : OpResult :=
  postToPrivateEndpoint a "withdrawals/coinbase-account" (some params.toBody) ts t

/-- `withdrawToCoinbaseAccount` (src/index.ts lines 772-774): posts its
params to the `withdrawals/coinbase-account` endpoint. -/
def withdrawToCoinbaseAccount (a : RawAgent) (params : IWithdrawToCoinbaseAccountParams)
    (ts : String) (t : Transport) : OpResult :=
  postToPrivateEndpoint a "withdrawals/coinbase-account" (some params.toBody) ts t

/-! ## Agent operation sequences (for the credential-lifecycle claim) -/

/-- One call on the raw agent, for reasoning about arbitrary operation
sequences. -/
inductive AgentOp where
  | publicGet (endpoint : String) (qp : Option IQueryParams) (t : Transport)
  | privateGet (endpoint : String) (qp : Option IQueryParams) (ts : String) (t : Transport)
  | privatePost (endpoint : String) (body : Option IPostBody) (ts : String) (t : Transport)
  | privateDelete (endpoint : String) (qp : Option IQueryParams) (ts : String) (t : Transport)
  | doUpgrade (newAuth : IApiAuth)

/-- The agent state after one call. -/
def stepAgent (a : RawAgent) : AgentOp → RawAgent
  | .publicGet e q t => (getPublicEndpoint a e q t).agent
  | .privateGet e q ts t => (getFromPrivateEndpoint a e q ts t).agent
  | .privatePost e b ts t => (postToPrivateEndpoint a e b ts t).agent
  | .privateDelete e q ts t => (deleteFromPrivateEndpoint a e q ts t).agent
  | .doUpgrade n => upgrade a n

/-- The agent state after a sequence of calls. -/
def runOps (a : RawAgent) (ops : List AgentOp) : RawAgent :=
  ops.foldl stepAgent a

/-! ## A small decidable substring check, for query-string assertions -/

/-- Whether `needle` occurs as a contiguous substring of `hay`. -/
def strContains (hay needle : String) : Bool :=
  let h := hay.toList
  let n := needle.toList
  (List.range (h.length + 1)).any fun i => (h.drop i).take n.length == n

/-- The agent in its credential-absent (public-only) state. -/
def publicOnlyAgent : RawAgent := { auth := none }

/-! ## Known-answer tests for the crypto pipeline -/

set_option maxRecDepth 100000 in
/-- SHA-256 known-answer test: the hash of `"abc"`. -/
theorem sha256_abc :
    sha256 (utf8Encode "abc") =
      [0xba, 0x78, 0x16, 0xbf, 0x8f, 0x01, 0xcf, 0xea,
       0x41, 0x41, 0x40, 0xde, 0x5d, 0xae, 0x22, 0x23,
       0xb0, 0x03, 0x61, 0xa3, 0x96, 0x17, 0x7a, 0x9c,
       0xb4, 0x10, 0xff, 0x61, 0xf2, 0x00, 0x15, 0xad] := by
  decide

set_option maxRecDepth 100000 in
/-- HMAC-SHA256 / base64 known-answer test, matching the node `crypto`
pipeline the signer delegates to: key `base64decode("c2VjcmV0")` (the bytes
of `secret`), message `1500000000.123POST/orders`. -/
theorem hmac_base64_kat :
    base64Encode (hmacSha256 (base64Decode "c2VjcmV0")
        (utf8Encode "1500000000.123POST/orders")) =
      "Bi2p3KKScgTakGhb0eWUaoTM4/IZEl/eM09+e6wJ/gI=" := by
  decide

/-! ## Base64 encoding is injective on byte lists -/

/-- `b64Inv` inverts `b64Char` on six-bit values. -/
theorem b64Inv_b64Char_fin : ∀ v : Fin 64, b64Inv (b64Char v.val) = v.val := by decide

/-- `b64Inv` inverts `b64Char` on six-bit values, `Nat` form. -/
theorem b64Inv_b64Char (v : Nat) (h : v < 64) : b64Inv (b64Char v) = v :=
  b64Inv_b64Char_fin ⟨v, h⟩

/-- No alphabet character is the padding character. -/
theorem b64Char_ne_pad_fin : ∀ v : Fin 64, b64Char v.val ≠ '=' := by decide

/-- No alphabet character is the padding character, `Nat` form. -/
theorem b64Char_ne_pad (v : Nat) (h : v < 64) : b64Char v ≠ '=' :=
  b64Char_ne_pad_fin ⟨v, h⟩

/-- Round trip: decoding the emitted character stream recovers the byte
list, for any sufficient fuel and in-range bytes. -/
theorem b64DecodeChars_encodeAux :
    ∀ (f : Nat) (xs : List Nat), xs.length ≤ f → (∀ b ∈ xs, b < 256) →
      b64DecodeChars (base64EncodeAux f xs) = xs := by
  intro f
  induction f with
  | zero =>
      intro xs hlen _
      have hnil : xs = [] := List.eq_nil_of_length_eq_zero (Nat.le_zero.mp hlen)
      subst hnil
      rfl
  | succ g ih =>
      intro xs hlen hb
      match xs with
      | [] => rfl
      | [b1] =>
          have h1 : b1 < 256 := hb b1 (by simp)
          show b64DecodeChars [b64Char (b1 / 4), b64Char (b1 % 4 * 16), '=', '='] = [b1]
          rw [b64DecodeChars]
          rw [if_pos rfl]
          rw [b64Inv_b64Char _ (by omega), b64Inv_b64Char _ (by omega)]
          simp only [List.cons.injEq, and_true]
          omega
      | [b1, b2] =>
          have h1 : b1 < 256 := hb b1 (by simp)
          have h2 : b2 < 256 := hb b2 (by simp)
          show b64DecodeChars [b64Char (b1 / 4), b64Char (b1 % 4 * 16 + b2 / 16),
              b64Char (b2 % 16 * 4), '='] = [b1, b2]
          rw [b64DecodeChars]
          rw [if_neg (b64Char_ne_pad _ (by omega))]
          rw [if_pos rfl]
          rw [b64Inv_b64Char _ (by omega), b64Inv_b64Char _ (by omega),
              b64Inv_b64Char _ (by omega)]
          simp only [List.cons.injEq, and_true]
          omega
      | b1 :: b2 :: b3 :: rest =>
          have h1 : b1 < 256 := hb b1 (by simp)
          have h2 : b2 < 256 := hb b2 (by simp)
          have h3 : b3 < 256 := hb b3 (by simp)
          have hrest : ∀ b ∈ rest, b < 256 := fun b hbr => hb b (by simp [hbr])
          have hlrest : rest.length ≤ g := by
            simp only [List.length_cons] at hlen
            omega
          show b64DecodeChars (b64Char (b1 / 4) :: b64Char (b1 % 4 * 16 + b2 / 16) ::
              b64Char (b2 % 16 * 4 + b3 / 64) :: b64Char (b3 % 64) ::
              base64EncodeAux g rest) = b1 :: b2 :: b3 :: rest
          rw [b64DecodeChars]
          rw [if_neg (b64Char_ne_pad _ (by omega))]
          rw [if_neg (b64Char_ne_pad _ (by omega))]
          rw [b64Inv_b64Char _ (by omega), b64Inv_b64Char _ (by omega),
              b64Inv_b64Char _ (by omega), b64Inv_b64Char _ (by omega)]
          rw [ih rest hlrest hrest]
          simp only [List.cons.injEq, and_true]
          refine ⟨by omega, by omega, by omega⟩

/-- `base64Encode` is injective on lists of byte values: equal encodings
force equal byte lists. -/
theorem base64Encode_inj (xs ys : List Nat) (hx : ∀ b ∈ xs, b < 256)
    (hy : ∀ b ∈ ys, b < 256) (h : base64Encode xs = base64Encode ys) : xs = ys := by
  have hchars : base64EncodeAux xs.length xs = base64EncodeAux ys.length ys := by
    simpa [base64Encode] using congrArg String.data h
  calc xs = b64DecodeChars (base64EncodeAux xs.length xs) :=
        (b64DecodeChars_encodeAux xs.length xs le_rfl hx).symm
    _ = b64DecodeChars (base64EncodeAux ys.length ys) := by rw [hchars]
    _ = ys := b64DecodeChars_encodeAux ys.length ys le_rfl hy

/-- Every element `bytesBE` emits is a byte value. -/
theorem bytesBE_lt : ∀ (k n : Nat), ∀ b ∈ bytesBE k n, b < 256 := by
  intro k
  induction k with
  | zero => intro n b hb; simp [bytesBE] at hb
  | succ j ih =>
      intro n b hb
      rw [bytesBE] at hb
      rcases List.mem_cons.mp hb with h | h
      · omega
      · exact ih n b h

/-- Every byte of a SHA-256 digest is in range. -/
theorem sha256_lt (m : List Nat) : ∀ b ∈ sha256 m, b < 256 := by
  intro b hb
  simp only [sha256, List.mem_flatten, List.mem_map] at hb
  obtain ⟨l, ⟨w, _, hl⟩, hbl⟩ := hb
  exact bytesBE_lt 4 w b (hl ▸ hbl)

/-- Every byte of an HMAC-SHA256 digest is in range. -/
theorem hmacSha256_lt (key msg : List Nat) : ∀ b ∈ hmacSha256 key msg, b < 256 := by
  intro b hb
  exact sha256_lt _ b (by simpa [hmacSha256] using hb)

/-! ## Helper lemmas -/

/-- A dispatch hands exactly its configuration to the transport, whatever
the outcome. -/
theorem dispatched_dispatch (a : RawAgent) (cfg : AgentConfig) (t : Transport) :
    (dispatch a cfg t).dispatched = [cfg] := by
  cases h : t cfg <;> simp [dispatch, h]

/-- A dispatch leaves the agent state unchanged, whatever the outcome. -/
theorem agent_dispatch (a : RawAgent) (cfg : AgentConfig) (t : Transport) :
    (dispatch a cfg t).agent = a := by
  cases h : t cfg <;> simp [dispatch, h]

/-- `getPublicEndpoint` leaves the agent state unchanged. -/
theorem agent_getPublicEndpoint (a : RawAgent) (e : String)
    (q : Option IQueryParams) (t : Transport) :
    (getPublicEndpoint a e q t).agent = a := by
  simp [getPublicEndpoint, agent_dispatch]

/-- `getFromPrivateEndpoint` leaves the agent state unchanged. -/
theorem agent_getFromPrivateEndpoint (a : RawAgent) (e : String)
    (q : Option IQueryParams) (ts : String) (t : Transport) :
    (getFromPrivateEndpoint a e q ts t).agent = a := by
  cases ha : a.auth <;> simp [getFromPrivateEndpoint, ha, agent_dispatch]

/-- `postToPrivateEndpoint` leaves the agent state unchanged. -/
theorem agent_postToPrivateEndpoint (a : RawAgent) (e : String)
    (b : Option IPostBody) (ts : String) (t : Transport) :
    (postToPrivateEndpoint a e b ts t).agent = a := by
  cases ha : a.auth <;> simp [postToPrivateEndpoint, ha, agent_dispatch]

/-- `deleteFromPrivateEndpoint` leaves the agent state unchanged. -/
theorem agent_deleteFromPrivateEndpoint (a : RawAgent) (e : String)
    (q : Option IQueryParams) (ts : String) (t : Transport) :
    (deleteFromPrivateEndpoint a e q ts t).agent = a := by
  cases ha : a.auth <;> simp [deleteFromPrivateEndpoint, ha, agent_dispatch]

/-- Every single agent call preserves credential presence. -/
theorem isUpgraded_stepAgent (a : RawAgent) (op : AgentOp)
    (h : isUpgraded a = true) : isUpgraded (stepAgent a op) = true := by
  cases op with
  | publicGet e q t => rw [stepAgent, agent_getPublicEndpoint]; exact h
  | privateGet e q ts t => rw [stepAgent, agent_getFromPrivateEndpoint]; exact h
  | privatePost e b ts t => rw [stepAgent, agent_postToPrivateEndpoint]; exact h
  | privateDelete e q ts t => rw [stepAgent, agent_deleteFromPrivateEndpoint]; exact h
  | doUpgrade n => simp [stepAgent, upgrade, isUpgraded]

/-- No sequence of agent calls clears the credentials once present. -/
theorem isUpgraded_runOps (ops : List AgentOp) (a : RawAgent)
    (h : isUpgraded a = true) : isUpgraded (runOps a ops) = true := by
  induction ops generalizing a with
  | nil => exact h
  | cons op rest ih => exact ih (stepAgent a op) (isUpgraded_stepAgent a op h)

/-! ## Claim theorems -/

/-- Claim C1: for every secret, path, method, optional body and timestamp,
`signMessage` returns a signature whose digest is
base64(HMAC-SHA256(base64decode(secret), prehash)) with prehash the
concatenation of the timestamp, the uppercased method, the path, and the
JSON serialization of the body when a body is given (nothing otherwise),
and whose timestamp field is exactly the timestamp that built the
prehash. -/
theorem claim_C1_signMessage_digest_and_timestamp (secret path method : String)
    (body : Option IPostBody) (ts : String) :
    signMessage secret path method body ts =
      { digest := base64Encode (hmacSha256 (base64Decode secret)
          (utf8Encode (ts ++ jsToUpperCase method ++ path ++
            (match body with
             | some b => jsonStringify b
             | none => "")))),
        timestamp := ts } := by
  cases body with
  | none => simp [signMessage, signPrehash, String.append_empty]
  | some b => rfl

/-- Claim C2: on the credential-absent agent, each of the three private
primitives rejects with the unauthenticated string rejection and hands
nothing to the transport. -/
theorem claim_C2_unauthenticated_rejects_without_transport (endpoint : String)
    (qp : Option IQueryParams) (body : Option IPostBody) (ts : String) (t : Transport) :
    (getFromPrivateEndpoint publicOnlyAgent endpoint qp ts t).result
        = .error unauthenticatedRejection ∧
    (getFromPrivateEndpoint publicOnlyAgent endpoint qp ts t).dispatched = [] ∧
    (postToPrivateEndpoint publicOnlyAgent endpoint body ts t).result
        = .error unauthenticatedRejection ∧
    (postToPrivateEndpoint publicOnlyAgent endpoint body ts t).dispatched = [] ∧
    (deleteFromPrivateEndpoint publicOnlyAgent endpoint qp ts t).result
        = .error unauthenticatedRejection ∧
    (deleteFromPrivateEndpoint publicOnlyAgent endpoint qp ts t).dispatched = [] ∧
    unauthenticatedRejection
        = .value (.strV "api keys are required to access private endpoints") :=
  ⟨rfl, rfl, rfl, rfl, rfl, rfl, rfl⟩

/-- Claim C10: `listOrders` and `listFunding` read `params.status`
unconditionally, so with the optional params argument omitted they reject
with the property-read type error before any agent primitive runs —
on every agent, upgraded or not. -/
theorem claim_C10_listOrders_listFunding_throw_on_missing_params (a : RawAgent)
    (pp : Option IQueryParams) (ts : String) (t : Transport) :
    (listOrders a none pp ts t).result = .error (.exn propertyReadTypeError) ∧
    (listOrders a none pp ts t).dispatched = [] ∧
    (listFunding a none pp ts t).result = .error (.exn propertyReadTypeError) ∧
    (listFunding a none pp ts t).dispatched = [] :=
  ⟨rfl, rfl, rfl, rfl⟩

/-- Claim C3: on an upgraded agent the `CB-ACCESS-SIGN` header of the one
dispatched request is the `signMessage` digest computed with method GET
(private get) or DELETE (private delete) and no body — even when query
parameters are present — and with method POST and the request body for the
post primitive. -/
theorem claim_C3_per_verb_signing (auth : IApiAuth) (endpoint : String)
    (qp : Option IQueryParams) (body : Option IPostBody) (ts : String) (t : Transport) :
    ((getFromPrivateEndpoint { auth := some auth } endpoint qp ts t).dispatched.map
        (fun c => c.headers.cbAccessSign)
      = [some (signMessage auth.privateKey
          ("/" ++ endpoint ++ "?" ++ qsStringify qp) "GET" none ts).digest]) ∧
    ((deleteFromPrivateEndpoint { auth := some auth } endpoint qp ts t).dispatched.map
        (fun c => c.headers.cbAccessSign)
      = [some (signMessage auth.privateKey
          ("/" ++ endpoint ++ "?" ++ qsStringify qp) "DELETE" none ts).digest]) ∧
    ((postToPrivateEndpoint { auth := some auth } endpoint body ts t).dispatched.map
        (fun c => c.headers.cbAccessSign)
      = [some (signMessage auth.privateKey ("/" ++ endpoint) "POST" body ts).digest]) := by
  refine ⟨?_, ?_, ?_⟩ <;>
    simp [getFromPrivateEndpoint, deleteFromPrivateEndpoint, postToPrivateEndpoint,
      dispatched_dispatch, privateHeaders]

/-- Claim C5: none of the request primitives changes the credentials;
`upgrade` replaces them wholesale with the new credentials, after which
`isUpgraded` holds; and no operation sequence returns an upgraded agent to
the credential-absent state. -/
theorem claim_C5_credential_lifecycle (a : RawAgent) (n c : IApiAuth)
    (e : String) (q : Option IQueryParams) (b : Option IPostBody) (ts : String)
    (t : Transport) (ops : List AgentOp) :
    isUpgraded a = a.auth.isSome ∧
    (getPublicEndpoint a e q t).agent = a ∧
    (getFromPrivateEndpoint a e q ts t).agent = a ∧
    (postToPrivateEndpoint a e b ts t).agent = a ∧
    (deleteFromPrivateEndpoint a e q ts t).agent = a ∧
    (upgrade a n).auth = some n ∧
    isUpgraded (upgrade a n) = true ∧
    isUpgraded (runOps { auth := some c } ops) = true :=
  ⟨rfl, agent_getPublicEndpoint a e q t, agent_getFromPrivateEndpoint a e q ts t,
   agent_postToPrivateEndpoint a e b ts t, agent_deleteFromPrivateEndpoint a e q ts t,
   rfl, rfl, isUpgraded_runOps ops { auth := some c } rfl⟩

/-- Claim C7 counterexample: with no query parameters at all,
`getPublicEndpoint` still dispatches to `/products?` — the `?` is appended
unconditionally — which differs from the bare `/products` the claim
requires. -/
theorem claim_C7_counterexample :
    ((getPublicEndpoint publicOnlyAgent "products" none
        (fun _ => .success .null)).dispatched.map (fun c => c.url)) = ["/products?"] ∧
    (("/products?" == "/products") = false) := by
  exact ⟨by decide, by decide⟩

/-- Claim C7 as amended: the url dispatched by `getPublicEndpoint`,
`getFromPrivateEndpoint` and `deleteFromPrivateEndpoint` is always
`/endpoint?` followed by the serialized query string — the `?` is present
even when query parameters are absent, with an empty query part — while
`postToPrivateEndpoint` dispatches to exactly `/endpoint` with no query
string ever appended. -/
theorem claim_C7_amended_url_shapes (a : RawAgent) (auth : IApiAuth)
    (e : String) (q : Option IQueryParams) (b : Option IPostBody) (ts : String)
    (t : Transport) :
    ((getPublicEndpoint a e q t).dispatched.map (fun c => c.url)
      = ["/" ++ e ++ "?" ++ qsStringify q]) ∧
    ((getFromPrivateEndpoint { auth := some auth } e q ts t).dispatched.map (fun c => c.url)
      = ["/" ++ e ++ "?" ++ qsStringify q]) ∧
    ((deleteFromPrivateEndpoint { auth := some auth } e q ts t).dispatched.map (fun c => c.url)
      = ["/" ++ e ++ "?" ++ qsStringify q]) ∧
    ((postToPrivateEndpoint { auth := some auth } e b ts t).dispatched.map (fun c => c.url)
      = ["/" ++ e]) := by
  refine ⟨?_, ?_, ?_, ?_⟩ <;>
    simp [getPublicEndpoint, getFromPrivateEndpoint, deleteFromPrivateEndpoint,
      postToPrivateEndpoint, dispatched_dispatch]

set_option maxRecDepth 100000 in
/-- Claim C4: for every secret, path, method and timestamp, the
omitted-body prehash and the empty-mapping prehash differ — the latter is
the former extended by the two-character empty-object serialization — the
two digests are the base64-encoded HMACs of those two differing prehashes,
the two digests can agree only if HMAC-SHA256 itself collides on the two
prehashes (base64 encoding is injective), and at a concrete input the two
digests indeed differ. -/
theorem claim_C4_omitted_body_differs_from_empty_body
    (secret path method ts : String) :
    signPrehash path method (some []) ts
        = signPrehash path method none ts ++ "\x7b\x7d" ∧
    signPrehash path method none ts ≠ signPrehash path method (some []) ts ∧
    (signMessage secret path method none ts).digest
        = base64Encode (hmacSha256 (base64Decode secret)
            (utf8Encode (signPrehash path method none ts))) ∧
    (signMessage secret path method (some []) ts).digest
        = base64Encode (hmacSha256 (base64Decode secret)
            (utf8Encode (signPrehash path method (some []) ts))) ∧
    ((signMessage secret path method none ts).digest
        = (signMessage secret path method (some []) ts).digest →
      hmacSha256 (base64Decode secret) (utf8Encode (signPrehash path method none ts))
        = hmacSha256 (base64Decode secret)
            (utf8Encode (signPrehash path method (some []) ts))) ∧
    (signMessage "c2VjcmV0" "/orders" "POST" none "1500000000.123").digest
        ≠ (signMessage "c2VjcmV0" "/orders" "POST" (some []) "1500000000.123").digest := by
  have hjson : jsonStringify [] = "\x7b\x7d" := by decide
  have hext : signPrehash path method (some []) ts
      = signPrehash path method none ts ++ "\x7b\x7d" := by
    simp [signPrehash, hjson, String.append_assoc]
  refine ⟨hext, ?_, rfl, rfl, ?_, by decide⟩
  · intro h
    rw [hext] at h
    have hlen := congrArg String.length h
    rw [String.length_append] at hlen
    have h2 : ("\x7b\x7d" : String).length = 2 := rfl
    omega
  · intro h
    exact base64Encode_inj _ _ (hmacSha256_lt _ _) (hmacSha256_lt _ _) h

/-- Claim C4 witness: the theorem at a concrete secret, path, method and
timestamp. -/
theorem claim_C4_witness :
    signPrehash "/orders" "POST" (some []) "1500000000.123"
        = signPrehash "/orders" "POST" none "1500000000.123" ++ "\x7b\x7d" ∧
    signPrehash "/orders" "POST" none "1500000000.123"
        ≠ signPrehash "/orders" "POST" (some []) "1500000000.123" :=
  ⟨(claim_C4_omitted_body_differs_from_empty_body "c2VjcmV0" "/orders" "POST" "1500000000.123").1,
   (claim_C4_omitted_body_differs_from_empty_body "c2VjcmV0" "/orders" "POST" "1500000000.123").2.1⟩

/-- Claim C6 (behaviour of the shared catch block, demonstrating the
divergence on network-level failures): when the transport error carries a
response with a truthy structured `error` field that field is the
rejection; with a truthy body but no truthy `error` field the body is; with
a truthy response whose body is falsy the raw response is; but when no
response was received at all — a network-level failure — the chain throws
the property-read TypeError instead of surfacing the raw transport
error. -/
theorem claim_C6_rejection_priority_and_network_typeerror :
    (getPublicEndpoint publicOnlyAgent "products" none
        (fun _ => .failure (.obj [("response", .obj [("data",
            .obj [("error", .strV "Invalid price"), ("code", .numV 400)])])]))).result
      = .error (.value (.strV "Invalid price")) ∧
    (getPublicEndpoint publicOnlyAgent "products" none
        (fun _ => .failure (.obj [("response", .obj [("data", .strV "Bad Request")])]))).result
      = .error (.value (.strV "Bad Request")) ∧
    (getPublicEndpoint publicOnlyAgent "products" none
        (fun _ => .failure (.obj [("response", .obj [("data", .strV ""),
            ("status", .numV 500)])]))).result
      = .error (.value (.obj [("data", .strV ""), ("status", .numV 500)])) ∧
    (getPublicEndpoint publicOnlyAgent "products" none
        (fun _ => .failure (.obj [("message", .strV "Network Error")]))).result
      = .error (.exn propertyReadTypeError) :=
  ⟨rfl, rfl, rfl, rfl⟩

/-- Claim C8: `listOrders` with a status list serializes it by hand into
the repeated-key form `status=v1&status=v2&...` folded into the endpoint it
hands to the private get primitive; on the concrete two-status call the
dispatched url contains `status=open&status=pending` and contains neither a
bracketed key nor any bracket at all. -/
theorem claim_C8_repeated_status_keys (a : RawAgent) (vs : List String)
    (ts : String) (t : Transport) :
    (listOrders a (some { status := some vs, product_id := none }) none ts t
      = getFromPrivateEndpoint a
          ("orders?" ++ (String.intercalate "&" (vs.map fun v => "status=" ++ v)
            ++ "&" ++ qsStringify none)) none ts t) ∧
    ((listOrders { auth := some { publicKey := "k", privateKey := "c2VjcmV0", passphrase := "p" } }
        (some { status := some ["open", "pending"], product_id := none }) none "1.5"
        (fun _ => .success .null)).dispatched.map
          (fun c => strContains c.url "status=open&status=pending") = [true]) ∧
    ((listOrders { auth := some { publicKey := "k", privateKey := "c2VjcmV0", passphrase := "p" } }
        (some { status := some ["open", "pending"], product_id := none }) none "1.5"
        (fun _ => .success .null)).dispatched.map
          (fun c => strContains c.url "status[]=") = [false]) ∧
    ((listOrders { auth := some { publicKey := "k", privateKey := "c2VjcmV0", passphrase := "p" } }
        (some { status := some ["open", "pending"], product_id := none }) none "1.5"
        (fun _ => .success .null)).dispatched.map
          (fun c => strContains c.url "[") = [false]) := by
  refine ⟨rfl, ?_, ?_, ?_⟩ <;> decide

/-- Claim C9: `withdrawToPaymentMethod` dispatches to
`/withdrawals/coinbase-account` — exactly the url `withdrawToCoinbaseAccount`
dispatches to — and that url does not contain a `withdrawals/payment-method`
path. -/
theorem claim_C9_withdraw_paths_coincide (a : RawAgent)
    (p : IWithdrawToPaymentMethodParams) (q : IWithdrawToCoinbaseAccountParams)
    (ts ts2 : String) (t t2 : Transport) :
    ((withdrawToPaymentMethod a p ts t).dispatched.map (fun c => c.url)
      = if isUpgraded a then ["/withdrawals/coinbase-account"] else []) ∧
    ((withdrawToCoinbaseAccount a q ts2 t2).dispatched.map (fun c => c.url)
      = if isUpgraded a then ["/withdrawals/coinbase-account"] else []) ∧
    ((withdrawToPaymentMethod a p ts t).dispatched.map (fun c => c.url)
      = (withdrawToCoinbaseAccount a q ts2 t2).dispatched.map (fun c => c.url)) ∧
    (strContains "/withdrawals/coinbase-account" "withdrawals/payment-method" = false) := by
  have hlit : ("/" ++ "withdrawals/coinbase-account" : String)
      = "/withdrawals/coinbase-account" := by decide
  cases ha : a.auth <;>
    refine ⟨?_, ?_, ?_, by decide⟩ <;>
      simp [withdrawToPaymentMethod, withdrawToCoinbaseAccount, postToPrivateEndpoint,
        ha, isUpgraded, dispatched_dispatch, hlit]

end GdaxClient
